import Mathlib

/-!
# Verification of the orchestration engine in `src/game.js`

A shallow embedding of the parts of the game's single-file source that the
verified properties speak about:

* the numeric helpers `clamp01`, `lerp`, `easeInOut` (source lines 27-29);
* the `AudioManager` fade engine, mute handling and playback watchdog
  (lines 115-330);
* the `MiniGameManager` open/finish/close lifecycle (lines 484-566);
* the phrase-assignment ledger `_getOrAssignPhrase` and its fixed pool
  (lines 1939-1952, 2136-2149);
* the tap handler `_handleInteract` (lines 1796-1836);
* the finale timeline (lines 2002-2018, 2065-2078);
* `StorageManager.load` with its one-time release reset (lines 62-100);
* the `App` constructor / `_restore` startup path (lines 1256-1402, 1880-1924).

JavaScript numbers are modelled as exact rationals, except where a division
can produce the IEEE special values `Infinity`, `-Infinity` or `NaN`
(the `clamp01((now - start)/duration)` expression when `duration <= 0`);
those flows use the `JsNum` type, which mirrors how JS `/`, `Math.min`,
`Math.max`, comparison and arithmetic treat the special values.
Wall-clock timestamps (`performance.now()`) are passed in explicitly.
`Math.random()` draws are passed in as natural-number oracles, reduced
modulo the length of the list being drawn from, which reaches exactly the
indices `Math.floor(Math.random() * length)` can produce.
-/

/-- `clamp01` from game.js line 27: `Math.max(0, Math.min(1, v))` on a finite number. -/
def clamp01 (v : ℚ) : ℚ := max 0 (min 1 v)

/-- `lerp` from game.js line 28: `a + (b - a) * t`. -/
def lerp (a b t : ℚ) : ℚ := a + (b - a) * t

/-- `easeInOut` from game.js line 29: `t < 0.5 ? 2*t*t : 1 - Math.pow(-2*t+2, 2)/2`. -/
def easeInOut (t : ℚ) : ℚ := if t < 1/2 then 2 * t * t else 1 - (-2 * t + 2)^2 / 2

/-- A JavaScript number: either a finite value (kept exact as a rational) or one
of the IEEE special values that the fade arithmetic can produce. -/
inductive JsNum
  | fin (q : ℚ)
  | posInf
  | negInf
  | nan
  deriving DecidableEq, Repr

/-- JS division `n / d` of finite numbers: division by zero yields a signed
infinity, and `0 / 0` yields `NaN`. -/
def jsDiv (n d : ℚ) : JsNum :=
  if d = 0 then (if 0 < n then .posInf else if n < 0 then .negInf else .nan)
  else .fin (n / d)

/-- JS `Math.min(1, x)`: `NaN` is absorbing, `Infinity` caps at 1. -/
def jsMin1 : JsNum → JsNum
  | .fin q => .fin (min 1 q)
  | .posInf => .fin 1
  | .negInf => .negInf
  | .nan => .nan

/-- JS `Math.max(0, x)`: `NaN` is absorbing, `-Infinity` floors at 0. -/
def jsMax0 : JsNum → JsNum
  | .fin q => .fin (max 0 q)
  | .posInf => .posInf
  | .negInf => .fin 0
  | .nan => .nan

/-- `clamp01` applied to a possibly non-finite JS number. -/
def jsClamp01 (x : JsNum) : JsNum := jsMax0 (jsMin1 x)

/-- `easeInOut` on a JS number.  `NaN < 0.5` is false in JS, so `NaN` takes the
second branch and all further arithmetic stays `NaN`.  The infinite cases follow
JS arithmetic as well; they are unreachable after `jsClamp01`. -/
def jsEase : JsNum → JsNum
  | .fin q => .fin (easeInOut q)
  | .nan => .nan
  | .posInf => .negInf
  | .negInf => .posInf

/-- `lerp a b t` where `t` is a JS number and `a`, `b` are finite.
`a + (b - a) * (±Infinity)` is a signed infinity unless `b - a = 0`, in which
case `0 * Infinity = NaN`. -/
def jsLerp (a b : ℚ) : JsNum → JsNum
  | .fin t => .fin (lerp a b t)
  | .nan => .nan
  | .posInf => if a < b then .posInf else if b < a then .negInf else .nan
  | .negInf => if a < b then .negInf else if b < a then .posInf else .nan

/-- JS multiplication of a possibly non-finite number by a finite one. -/
def jsMulQ : JsNum → ℚ → JsNum
  | .fin q, m => .fin (q * m)
  | .nan, _ => .nan
  | .posInf, m => if 0 < m then .posInf else if m < 0 then .negInf else .nan
  | .negInf, m => if 0 < m then .negInf else if m < 0 then .posInf else .nan

/-- JS comparison `x >= c` with `c` finite; false whenever `x` is `NaN`. -/
def jsGe (x : JsNum) (c : ℚ) : Bool :=
  match x with
  | .fin q => c ≤ q
  | .posInf => true
  | .negInf => false
  | .nan => false

/-- JS comparison `x > c` with `c` finite; false whenever `x` is `NaN`. -/
def jsGt (x : JsNum) (c : ℚ) : Bool :=
  match x with
  | .fin q => c < q
  | .posInf => true
  | .negInf => false
  | .nan => false

/-! ## AudioManager (game.js lines 115-330)

The two `<audio>` elements are modelled by their observable state: the
`volume` property, the `paused` flag, and the manager's own `_base` level for
the channel.  The `requestAnimationFrame` fade ticker only schedules calls to
`update`; scheduling itself carries no state that the claims mention, so the
embedding exposes `update` directly with the tick's timestamp. -/

/-- The two logical audio channels. -/
inductive Ch
  | ambient
  | final
  deriving DecidableEq, Repr

/-- One fade descriptor `{from, to, start, dur, active}` (game.js line 130-134). -/
structure FadeDesc where
  fadeFrom : ℚ
  fadeTo : ℚ
  start : ℚ
  dur : ℚ
  active : Bool
  deriving DecidableEq, Repr

/-- Observable state of one channel: the manager's `_base[which]`, the
element's `volume`, and the element's `paused` flag. -/
structure ChanState where
  base : JsNum
  vol : JsNum
  paused : Bool
  deriving DecidableEq, Repr

/-- The `AudioManager` state (game.js constructor, lines 116-146). -/
structure AudioManager where
  enabled : Bool
  muted : Bool
  masterVolume : ℚ
  ambient : ChanState
  final : ChanState
  fadeAmbient : FadeDesc
  fadeFinal : FadeDesc
  deriving DecidableEq, Repr

/-- The constructor's initial state: disabled, unmuted, master volume 1,
both bases and volumes 0, both elements not yet playing, no active fades. -/
def AudioManager.init : AudioManager :=
  { enabled := false
    muted := false
    masterVolume := 1
    ambient := ⟨.fin 0, .fin 0, true⟩
    final := ⟨.fin 0, .fin 0, true⟩
    fadeAmbient := ⟨0, 0, 0, 0, false⟩
    fadeFinal := ⟨0, 0, 0, 0, false⟩ }

/-- Channel accessor. -/
def AudioManager.chan (s : AudioManager) : Ch → ChanState
  | .ambient => s.ambient
  | .final => s.final

/-- Fade-descriptor accessor. -/
def AudioManager.fade (s : AudioManager) : Ch → FadeDesc
  | .ambient => s.fadeAmbient
  | .final => s.fadeFinal

/-- `setMuted` (game.js lines 148-164).  When muting: deactivate both fades
(and cancel the fade ticker), force both element volumes to 0 and pause both
elements.  `_base` is not touched.  When unmuting: only the flag changes. -/
def AudioManager.setMuted (s : AudioManager) (m : Bool) : AudioManager :=
  if m then
    { s with
      muted := m
      fadeAmbient := { s.fadeAmbient with active := false }
      fadeFinal := { s.fadeFinal with active := false }
      ambient := { s.ambient with vol := .fin 0, paused := true }
      final := { s.final with vol := .fin 0, paused := true } }
  else { s with muted := m }

/-- `setMasterVolume` (game.js lines 166-172). -/
def AudioManager.setMasterVolume (s : AudioManager) (v : ℚ) : AudioManager :=
  let s1 := { s with masterVolume := clamp01 v }
  if !s1.enabled then s1
  else if s1.muted then s1
  else
    { s1 with
      ambient := { s1.ambient with vol := jsClamp01 (jsMulQ s1.ambient.base s1.masterVolume) }
      final := { s1.final with vol := jsClamp01 (jsMulQ s1.final.base s1.masterVolume) } }

/-- `_startFade(which, from, to, dur)` (game.js lines 264-267), with the
`nowMs()` it records passed explicitly.  Overwrites the channel's descriptor
(last writer wins) and marks it active. -/
def AudioManager.startFade (s : AudioManager) (which : Ch) (f t d now : ℚ) : AudioManager :=
  match which with
  | .ambient => { s with fadeAmbient := ⟨f, t, now, d, true⟩ }
  | .final => { s with fadeFinal := ⟨f, t, now, d, true⟩ }

/-- The per-channel body `upd` of `AudioManager.update` (game.js lines 286-306):
progress, eased base, applied volume, deactivation at progress 1, and the pause
of a channel whose finished fade targeted (near) silence. -/
def updChan (mv tNow : ℚ) (c : ChanState) (f : FadeDesc) : ChanState × FadeDesc :=
  if !f.active then (c, f)
  else
    let t := jsClamp01 (jsDiv (tNow - f.start) f.dur)
    let base := jsLerp f.fadeFrom f.fadeTo (jsEase t)
    let applied := jsClamp01 (jsMulQ base mv)
    let c1 : ChanState := { c with base := base, vol := applied }
    if jsGe t 1 then
      let c2 := if f.fadeTo ≤ 1/10000 then { c1 with paused := true } else c1
      (c2, { f with active := false })
    else (c1, f)

/-- `update` (game.js lines 281-310), at tick timestamp `tNow`.  Early-returns
when disabled or muted; otherwise runs `upd` on each channel. -/
def AudioManager.update (s : AudioManager) (tNow : ℚ) : AudioManager :=
  if !s.enabled then s
  else if s.muted then s
  else
    let pa := updChan s.masterVolume tNow s.ambient s.fadeAmbient
    let pf := updChan s.masterVolume tNow s.final s.fadeFinal
    { s with ambient := pa.1, fadeAmbient := pa.2, final := pf.1, fadeFinal := pf.2 }

/-- `ensurePlayback` (game.js lines 316-330), the playback-recovery watchdog.
A `play()` call is modelled as succeeding (clearing `paused`); a host
rejection would leave the element paused, which no proved property depends on. -/
def AudioManager.ensurePlayback (s : AudioManager) : AudioManager :=
  if !s.enabled then s
  else if s.muted then s
  else if s.masterVolume ≤ 1/10000 then s
  else
    let needAmbient :=
      jsGt (jsMulQ s.ambient.base s.masterVolume) (1/2000) ||
        (s.fadeAmbient.active && decide ((1/2000 : ℚ) < s.fadeAmbient.fadeTo))
    let needFinal :=
      jsGt (jsMulQ s.final.base s.masterVolume) (1/2000) ||
        (s.fadeFinal.active && decide ((1/2000 : ℚ) < s.fadeFinal.fadeTo))
    let s1 :=
      if needAmbient && s.ambient.paused then
        { s with ambient := { s.ambient with paused := false } }
      else s
    if needFinal && s1.final.paused then
      { s1 with final := { s1.final with paused := false } }
    else s1

/-! ## Evaluation lemmas for the fade arithmetic -/

lemma jsClamp01_fin (q : ℚ) : jsClamp01 (.fin q) = .fin (clamp01 q) := rfl

lemma clamp01_zero : clamp01 0 = 0 := by norm_num [clamp01]

lemma clamp01_of_one_le {q : ℚ} (h : 1 ≤ q) : clamp01 q = 1 := by
  unfold clamp01
  rw [min_eq_left h, max_eq_right (by norm_num : (0:ℚ) ≤ 1)]

lemma easeInOut_zero : easeInOut 0 = 0 := by norm_num [easeInOut]

lemma easeInOut_one : easeInOut 1 = 1 := by norm_num [easeInOut]

lemma lerp_zero (a b : ℚ) : lerp a b 0 = a := by unfold lerp; ring

lemma lerp_one (a b : ℚ) : lerp a b 1 = b := by unfold lerp; ring

/-- An active fade sampled exactly at its start time yields `from` and stays
active (progress 0). -/
lemma updChan_start (mv : ℚ) (c : ChanState) (a b σ d : ℚ) (hd : d ≠ 0) :
    (updChan mv σ c ⟨a, b, σ, d, true⟩).1.base = .fin a ∧
    (updChan mv σ c ⟨a, b, σ, d, true⟩).2.active = true := by
  have h1 : jsDiv 0 d = .fin 0 := by simp [jsDiv, hd]
  constructor <;>
    norm_num [updChan, h1, jsClamp01_fin, clamp01_zero, jsEase, easeInOut_zero, jsLerp,
      lerp_zero, jsGe]

/-- An active fade of positive duration sampled at or after `start + dur`
yields `to` exactly and becomes inactive. -/
lemma updChan_done (mv tN : ℚ) (c : ChanState) (a b σ d : ℚ) (hd : 0 < d)
    (ht : σ + d ≤ tN) :
    (updChan mv tN c ⟨a, b, σ, d, true⟩).1.base = .fin b ∧
    (updChan mv tN c ⟨a, b, σ, d, true⟩).2.active = false := by
  have hd' : d ≠ 0 := ne_of_gt hd
  have h1 : jsDiv (tN - σ) d = .fin ((tN - σ) / d) := by simp [jsDiv, hd']
  have hq : 1 ≤ (tN - σ) / d := by rw [le_div_iff₀ hd]; linarith
  constructor <;>
    norm_num [updChan, h1, jsClamp01_fin, clamp01_of_one_le hq, jsEase, easeInOut_one, jsLerp,
      lerp_one, jsGe, apply_ite ChanState.base]

/-- An active fade of zero duration sampled strictly after its start time:
`(tNow - start)/0 = Infinity` in JS, which clamps to 1, so the channel snaps
to `to` and the fade completes. -/
lemma updChan_snap (mv tN : ℚ) (c : ChanState) (a b σ : ℚ) (ht : σ < tN) :
    (updChan mv tN c ⟨a, b, σ, 0, true⟩).1.base = .fin b ∧
    (updChan mv tN c ⟨a, b, σ, 0, true⟩).2.active = false := by
  have h1 : jsDiv (tN - σ) 0 = .posInf := by simp [jsDiv, sub_pos.mpr ht]
  have h2 : jsClamp01 JsNum.posInf = .fin 1 := by norm_num [jsClamp01, jsMin1, jsMax0]
  constructor <;>
    norm_num [updChan, h1, h2, jsEase, easeInOut_one, jsLerp, lerp_one, jsGe,
      apply_ite ChanState.base]

/-- An active fade of negative duration never snaps: the progress quotient is
nonpositive, so it clamps to 0 and the channel sits at `from` with the
descriptor still active. -/
lemma updChan_stuck (mv tN : ℚ) (c : ChanState) (a b σ d : ℚ) (hd : d < 0) (ht : σ ≤ tN) :
    (updChan mv tN c ⟨a, b, σ, d, true⟩).1.base = .fin a ∧
    (updChan mv tN c ⟨a, b, σ, d, true⟩).2.active = true := by
  have hd' : d ≠ 0 := ne_of_lt hd
  have h1 : jsDiv (tN - σ) d = .fin ((tN - σ) / d) := by simp [jsDiv, hd']
  have hq : (tN - σ) / d ≤ 0 := div_nonpos_of_nonneg_of_nonpos (by linarith) (le_of_lt hd)
  have hc : clamp01 ((tN - σ) / d) = 0 := by
    unfold clamp01
    rw [min_eq_right (by linarith), max_eq_left (by linarith)]
  constructor <;>
    norm_num [updChan, h1, jsClamp01_fin, hc, jsEase, easeInOut_zero, jsLerp, lerp_zero, jsGe]

/-- Unfolding `update` on an enabled, unmuted manager into the per-channel body. -/
lemma AudioManager.update_eq (s : AudioManager) (tN : ℚ)
    (hen : s.enabled = true) (hmu : s.muted = false) :
    (s.update tN).ambient = (updChan s.masterVolume tN s.ambient s.fadeAmbient).1 ∧
    (s.update tN).fadeAmbient = (updChan s.masterVolume tN s.ambient s.fadeAmbient).2 ∧
    (s.update tN).final = (updChan s.masterVolume tN s.final s.fadeFinal).1 ∧
    (s.update tN).fadeFinal = (updChan s.masterVolume tN s.final s.fadeFinal).2 := by
  simp [AudioManager.update, hen, hmu]

/-- **C2** (fade convergence): a fade started by `startFade(ch, a, b, d)` at
time `σ` with positive duration `d`, with audio enabled and not muted and not
superseded, samples to exactly `a` at time `σ` (still active), and to exactly
`b` at any time `σ + d` or later, at which point the descriptor is inactive. -/
theorem AudioManager.fade_convergence
    (s : AudioManager) (ch : Ch) (a b d σ tN : ℚ)
    (hen : s.enabled = true) (hmu : s.muted = false)
    (hd : 0 < d) (ht : σ + d ≤ tN) :
    (((s.startFade ch a b d σ).update σ).chan ch).base = JsNum.fin a ∧
    (((s.startFade ch a b d σ).update σ).fade ch).active = true ∧
    (((s.startFade ch a b d σ).update tN).chan ch).base = JsNum.fin b ∧
    (((s.startFade ch a b d σ).update tN).fade ch).active = false := by
  have hd' : d ≠ 0 := ne_of_gt hd
  cases ch <;>
    simp [AudioManager.update, AudioManager.startFade, AudioManager.chan, AudioManager.fade,
      hen, hmu] <;>
    exact ⟨(updChan_start _ _ _ _ _ _ hd').1, (updChan_start _ _ _ _ _ _ hd').2,
      (updChan_done _ _ _ _ _ _ _ hd ht).1, (updChan_done _ _ _ _ _ _ _ hd ht).2⟩

/-- The audio manager right after the first user gesture: enabled, unmuted. -/
def mgrOn : AudioManager := { AudioManager.init with enabled := true }

/-- Witness for C2 at the source's ambient fade-in (`0 → 0.14` over 2000 ms). -/
theorem AudioManager.fade_convergence_instance :
    (((mgrOn.startFade .ambient 0 (14/100) 2000 5).update 5).chan .ambient).base
        = JsNum.fin 0 ∧
    (((mgrOn.startFade .ambient 0 (14/100) 2000 5).update 5).fade .ambient).active = true ∧
    (((mgrOn.startFade .ambient 0 (14/100) 2000 5).update 2005).chan .ambient).base
        = JsNum.fin (14/100) ∧
    (((mgrOn.startFade .ambient 0 (14/100) 2000 5).update 2005).fade .ambient).active
        = false :=
  AudioManager.fade_convergence mgrOn .ambient 0 (14/100) 2000 5 2005 rfl rfl
    (by norm_num) (by norm_num)

/-- **C4** (mute is immediate and sticky): `setMuted(true)` deactivates both
fade descriptors, forces both element volumes to 0 and pauses both elements,
in one step with no animation; and on any muted state, neither `update` nor
`ensurePlayback` changes anything until unmuted. -/
theorem AudioManager.setMuted_silences_and_freezes (s : AudioManager) (tN : ℚ) :
    ((s.setMuted true).muted = true ∧
     (s.setMuted true).fadeAmbient.active = false ∧
     (s.setMuted true).fadeFinal.active = false ∧
     (s.setMuted true).ambient.vol = JsNum.fin 0 ∧
     (s.setMuted true).final.vol = JsNum.fin 0 ∧
     (s.setMuted true).ambient.paused = true ∧
     (s.setMuted true).final.paused = true) ∧
    (s.muted = true → s.update tN = s ∧ s.ensurePlayback = s) := by
  constructor
  · simp [AudioManager.setMuted]
  · intro hm
    constructor <;> simp [AudioManager.update, AudioManager.ensurePlayback, hm]

/-- Witness for C4: mute the freshly-enabled manager, then tick it. -/
theorem AudioManager.setMuted_silences_and_freezes_instance :
    (mgrOn.setMuted true).update 7 = mgrOn.setMuted true ∧
    (mgrOn.setMuted true).ensurePlayback = mgrOn.setMuted true :=
  ((AudioManager.setMuted_silences_and_freezes (mgrOn.setMuted true) 7).2) rfl

/-- **C5, counterexample**: the claim says every `startFade` with duration
`≤ 0` snaps the channel to `to` on the next update and completes.  With
duration `-1` (from 0 to 1, started at time 0, updated at time 5) the JS
progress `clamp01(5 / -1) = 0`, so the channel stays at `from = 0` and the
fade descriptor stays active forever: no snap and no completion. -/
theorem AudioManager.fade_negative_duration_not_snap :
    ((-1 : ℚ) ≤ 0) ∧
    ((mgrOn.startFade .ambient 0 1 (-1) 0).update 5).ambient.base = JsNum.fin 0 ∧
    ((mgrOn.startFade .ambient 0 1 (-1) 0).update 5).fadeAmbient.active = true ∧
    ((mgrOn.startFade .ambient 0 1 (-1) 0).update 5).ambient.base ≠ JsNum.fin 1 := by
  have hu := AudioManager.update_eq (mgrOn.startFade .ambient 0 1 (-1) 0) 5 rfl rfl
  have h := updChan_stuck 1 5 mgrOn.ambient 0 1 0 (-1) (by norm_num) (by norm_num)
  refine ⟨by norm_num, ?_, ?_, ?_⟩
  · rw [hu.1]; exact h.1
  · rw [hu.2.1]; exact h.2
  · have e : (updChan (mgrOn.startFade Ch.ambient 0 1 (-1) 0).masterVolume 5
        (mgrOn.startFade Ch.ambient 0 1 (-1) 0).ambient
        (mgrOn.startFade Ch.ambient 0 1 (-1) 0).fadeAmbient).1.base = JsNum.fin 0 := h.1
    rw [hu.1, e]
    simp

/-- **C5, amended**: a `startFade` with duration exactly 0 is an immediate
snap — on the next update, provided it happens strictly after the start time,
the channel's level equals `to` and the fade completes — while a negative
duration leaves the fade active at `from` (see the counterexample), and an
update at exactly the start time of a zero-duration fade computes `NaN` and
does not complete. -/
theorem AudioManager.fade_zero_duration_snaps
    (s : AudioManager) (ch : Ch) (a b σ tN : ℚ)
    (hen : s.enabled = true) (hmu : s.muted = false) (ht : σ < tN) :
    (((s.startFade ch a b 0 σ).update tN).chan ch).base = JsNum.fin b ∧
    (((s.startFade ch a b 0 σ).update tN).fade ch).active = false := by
  cases ch <;>
    simp [AudioManager.update, AudioManager.startFade, AudioManager.chan, AudioManager.fade,
      hen, hmu] <;>
    exact ⟨(updChan_snap _ _ _ _ _ _ ht).1, (updChan_snap _ _ _ _ _ _ ht).2⟩

/-- Witness for the amended C5: zero-duration fade to the final target level. -/
theorem AudioManager.fade_zero_duration_snaps_instance :
    (((mgrOn.startFade .final 0 (18/100) 0 0).update 1).chan .final).base
        = JsNum.fin (18/100) ∧
    (((mgrOn.startFade .final 0 (18/100) 0 0).update 1).fade .final).active = false :=
  AudioManager.fade_zero_duration_snaps mgrOn .final 0 (18/100) 0 1 rfl rfl (by norm_num)

/-! ## MiniGameManager (game.js lines 484-566)

A mini-game instance is identified by the index `pid` of the `open` call that
created it; the promise returned by that `open` call is identified by the same
`pid`.  The manager state mirrors `_active` (as the pid of the mounted game),
`_openedAt`, and `_resolve` (as the pid of the promise the stored resolver
belongs to).  Resolutions performed by calling the stored resolver are
appended to the `resolutions` log; calls to `game.unmount()` are appended to
the `unmounts` log.  The external signals are: another `open`, the game firing
`onComplete`, a dismiss gesture hitting the `cancel` handler (close button or
backdrop click, carrying its timestamp for the 280 ms guard), and a direct
`close()` call. -/

/-- Manager state: `_active`, `_openedAt`, `_resolve`, plus the observation
logs for promise resolutions and unmount calls. -/
structure MGState where
  activeP : Option ℕ
  openedAt : ℚ
  resolveP : Option ℕ
  resolutions : List (ℕ × Bool)
  unmounts : List ℕ
  deriving DecidableEq, Repr

/-- Constructor state (game.js lines 493-495): nothing active, nothing to
resolve, `_openedAt = 0`. -/
def MGState.initial : MGState := ⟨none, 0, none, [], []⟩

/-- `close()` (game.js lines 552-560): unmount the active game if any, clear
`_active` and `_openedAt`.  `_resolve` is NOT cleared. -/
def MGState.close (s : MGState) : MGState :=
  { s with
    activeP := none
    openedAt := 0
    unmounts := s.unmounts ++ (match s.activeP with | some p => [p] | none => []) }

/-- `_finish(ok)` (game.js lines 541-550): if a resolver is stored, clear it,
`close()`, then call it with `ok`; otherwise just `close()`. -/
def MGState.finish (s : MGState) (ok : Bool) : MGState :=
  match s.resolveP with
  | some p =>
      let s1 := ({ s with resolveP := none }).close
      { s1 with resolutions := s1.resolutions ++ [(p, ok)] }
  | none => s.close

/-- `open(game)` (game.js lines 512-539): `close()` the previous game, mount
the new one at time `t`, and store the new promise's resolver. -/
def MGState.openG (s : MGState) (pid : ℕ) (t : ℚ) : MGState :=
  { s.close with activeP := some pid, openedAt := t, resolveP := some pid }

/-- The signals a manager can receive after construction. -/
inductive MGEvent
  | openE (pid : ℕ) (t : ℚ)
  | completeE
  | cancelE (t : ℚ)
  | closeE
  deriving DecidableEq, Repr

/-- One signal.  The `cancel` handler (game.js lines 497-502) ignores a
dismiss while `_openedAt` is truthy and less than 280 ms old; `onComplete` and
`onCancel` are wired to `_finish(true)` / `_finish(false)` (lines 536-537). -/
def MGState.step (s : MGState) : MGEvent → MGState
  | .openE pid t => s.openG pid t
  | .completeE => s.finish true
  | .cancelE t => if s.openedAt ≠ 0 ∧ t - s.openedAt < 280 then s else s.finish false
  | .closeE => s.close

/-- A sequence of signals. -/
def MGState.run (s : MGState) (es : List MGEvent) : MGState := es.foldl MGState.step s

/-- Recognizes an `open` signal. -/
def MGEvent.isOpenE : MGEvent → Bool
  | .openE _ _ => true
  | _ => false

lemma MGState.close_resolveP (s : MGState) : s.close.resolveP = s.resolveP := rfl

lemma MGState.close_resolutions (s : MGState) : s.close.resolutions = s.resolutions := rfl

/-- Running only non-`open` signals from a state with no stored resolver never
resolves anything, and no resolver ever appears. -/
lemma MGState.run_resolved_none (es : List MGEvent) (s : MGState)
    (hop : es.all (fun e => !e.isOpenE) = true) (hr : s.resolveP = none) :
    (s.run es).resolutions = s.resolutions ∧ (s.run es).resolveP = none := by
  induction es generalizing s with
  | nil => exact ⟨rfl, hr⟩
  | cons e rest ih =>
      simp only [List.all_cons, Bool.and_eq_true] at hop
      have hstep : (s.step e).resolutions = s.resolutions ∧ (s.step e).resolveP = none := by
        cases e with
        | openE p t => simp [MGEvent.isOpenE] at hop
        | completeE => simp [MGState.step, MGState.finish, hr, MGState.close, hr]
        | cancelE t =>
            simp only [MGState.step]
            split
            · exact ⟨rfl, hr⟩
            · simp [MGState.finish, hr, MGState.close]
        | closeE => exact ⟨rfl, hr⟩
      have := ih (s.step e) hop.2 hstep.2
      exact ⟨this.1.trans hstep.1, this.2⟩

/-- Running only non-`open` signals from a state whose stored resolver belongs
to promise `pid`: either nothing resolves (and then no completion signal was
received), or exactly the single resolution `(pid, b)` is appended, with
`b = true` only if a completion signal occurred. -/
lemma MGState.run_resolved_some (es : List MGEvent) (s : MGState) (pid : ℕ)
    (hop : es.all (fun e => !e.isOpenE) = true) (hr : s.resolveP = some pid) :
    ((s.run es).resolutions = s.resolutions ∧ (s.run es).resolveP = some pid ∧
      MGEvent.completeE ∉ es) ∨
    (∃ b, (s.run es).resolutions = s.resolutions ++ [(pid, b)] ∧
      (s.run es).resolveP = none ∧ (b = true → MGEvent.completeE ∈ es)) := by
  induction es generalizing s with
  | nil => exact Or.inl ⟨rfl, hr, by simp⟩
  | cons e rest ih =>
      simp only [List.all_cons, Bool.and_eq_true] at hop
      cases e with
      | openE p t => simp [MGEvent.isOpenE] at hop
      | completeE =>
          have hstep : (s.step .completeE).resolutions = s.resolutions ++ [(pid, true)] ∧
              (s.step .completeE).resolveP = none := by
            simp [MGState.step, MGState.finish, hr, MGState.close]
          have hrest := MGState.run_resolved_none rest (s.step .completeE) hop.2 hstep.2
          refine Or.inr ⟨true, ?_, hrest.2, fun _ => by simp⟩
          rw [show (s.run (MGEvent.completeE :: rest)) = (s.step .completeE).run rest from rfl,
            hrest.1, hstep.1]
      | cancelE t =>
          by_cases hg : s.openedAt ≠ 0 ∧ t - s.openedAt < 280
          · have hstep : s.step (.cancelE t) = s := by simp [MGState.step, hg]
            have := ih (s.step (.cancelE t)) hop.2 (by rw [hstep]; exact hr)
            rw [show (s.run (MGEvent.cancelE t :: rest)) = (s.step (.cancelE t)).run rest
              from rfl] at *
            rcases this with ⟨h1, h2, h3⟩ | ⟨b, h1, h2, h3⟩
            · exact Or.inl ⟨by rw [h1, hstep], h2, by simp [h3]⟩
            · exact Or.inr ⟨b, by rw [h1, hstep], h2, fun hb => by simp [h3 hb]⟩
          · have hstep : (s.step (.cancelE t)).resolutions = s.resolutions ++ [(pid, false)] ∧
                (s.step (.cancelE t)).resolveP = none := by
              simp only [MGState.step, if_neg hg]
              simp [MGState.finish, hr, MGState.close]
            have hrest := MGState.run_resolved_none rest (s.step (.cancelE t)) hop.2 hstep.2
            refine Or.inr ⟨false, ?_, hrest.2, by simp⟩
            rw [show (s.run (MGEvent.cancelE t :: rest)) = (s.step (.cancelE t)).run rest
              from rfl, hrest.1, hstep.1]
      | closeE =>
          have hstep : (s.step .closeE).resolutions = s.resolutions ∧
              (s.step .closeE).resolveP = some pid := ⟨rfl, hr⟩
          have := ih (s.step .closeE) hop.2 hstep.2
          rw [show (s.run (MGEvent.closeE :: rest)) = (s.step .closeE).run rest from rfl] at *
          rcases this with ⟨h1, h2, h3⟩ | ⟨b, h1, h2, h3⟩
          · exact Or.inl ⟨h1.trans hstep.1, h2, by simp [h3]⟩
          · refine Or.inr ⟨b, ?_, h2, fun hb => by simp [h3 hb]⟩
            rw [h1, hstep.1]

/-- **C1** (mini-game single resolution): after `open` creates promise `pid`,
any sequence of completion / cancel / close signals sent to that open
mini-game resolves the promise at most once; every resolution is of this
`open` call's promise; a resolution to `true` happens only if a genuine
`onComplete` signal occurred; and when an `onComplete` signal does occur the
promise resolves exactly once. -/
theorem MiniGameManager.open_single_resolution (pid : ℕ) (t0 : ℚ) (es : List MGEvent)
    (hop : es.all (fun e => !e.isOpenE) = true) :
    ((MGState.initial.step (.openE pid t0)).run es).resolutions.length ≤ 1 ∧
    (∀ p b, (p, b) ∈ ((MGState.initial.step (.openE pid t0)).run es).resolutions → p = pid) ∧
    ((pid, true) ∈ ((MGState.initial.step (.openE pid t0)).run es).resolutions →
      MGEvent.completeE ∈ es) ∧
    (MGEvent.completeE ∈ es →
      ((MGState.initial.step (.openE pid t0)).run es).resolutions.length = 1) := by
  have hs : (MGState.initial.step (.openE pid t0)).resolveP = some pid := rfl
  have hres : (MGState.initial.step (.openE pid t0)).resolutions = [] := rfl
  rcases MGState.run_resolved_some es (MGState.initial.step (.openE pid t0)) pid hop hs with
    ⟨h1, _, h3⟩ | ⟨b, h1, _, h3⟩
  · rw [h1, hres]
    exact ⟨by simp, by simp, by simp, fun hc => absurd hc h3⟩
  · rw [h1, hres]
    refine ⟨by simp, by simp, ?_, fun _ => by simp⟩
    intro hmem
    simp at hmem
    exact h3 hmem

/-- Witness for C1: open then complete resolves exactly once, to `true`. -/
theorem MiniGameManager.open_single_resolution_instance :
    ((MGState.initial.step (.openE 1 100)).run [MGEvent.completeE]).resolutions.length = 1 :=
  (MiniGameManager.open_single_resolution 1 100 [MGEvent.completeE] (by decide)).2.2.2
    (by simp)

/-- Any single non-`open` signal either leaves the state untouched (an
early-guarded dismiss) or clears `_active`. -/
lemma MGState.step_active (s : MGState) (e : MGEvent) (he : e.isOpenE = false) :
    s.step e = s ∨ (s.step e).activeP = none := by
  cases e with
  | openE p t => simp [MGEvent.isOpenE] at he
  | completeE =>
      right
      cases hr : s.resolveP <;> simp [MGState.step, MGState.finish, hr, MGState.close]
  | cancelE t =>
      by_cases hg : s.openedAt ≠ 0 ∧ t - s.openedAt < 280
      · left; simp [MGState.step, hg]
      · right
        simp only [MGState.step, if_neg hg]
        cases hr : s.resolveP <;> simp [MGState.finish, hr, MGState.close]
  | closeE => right; rfl

/-- Once `_active` is cleared, non-`open` signals keep it cleared. -/
lemma MGState.run_active_none (es : List MGEvent) (s : MGState)
    (hop : es.all (fun e => !e.isOpenE) = true) (ha : s.activeP = none) :
    (s.run es).activeP = none := by
  induction es generalizing s with
  | nil => exact ha
  | cons e rest ih =>
      simp only [List.all_cons, Bool.and_eq_true] at hop
      refine ih (s.step e) hop.2 ?_
      cases e with
      | openE p t => simp [MGEvent.isOpenE] at hop
      | completeE => cases hr : s.resolveP <;> simp [MGState.step, MGState.finish, hr, MGState.close]
      | cancelE t =>
          by_cases hg : s.openedAt ≠ 0 ∧ t - s.openedAt < 280
          · simpa [MGState.step, hg] using ha
          · simp only [MGState.step, if_neg hg]
            cases hr : s.resolveP <;> simp [MGState.finish, hr, MGState.close]
      | closeE => rfl

/-- If the game is still mounted after a run of non-`open` signals, none of
those signals changed anything. -/
lemma MGState.run_still_active (es : List MGEvent) (s : MGState)
    (hop : es.all (fun e => !e.isOpenE) = true) (ha : (s.run es).activeP.isSome = true) :
    s.run es = s := by
  induction es generalizing s with
  | nil => rfl
  | cons e rest ih =>
      simp only [List.all_cons, Bool.and_eq_true] at hop
      have hrun : s.run (e :: rest) = (s.step e).run rest := rfl
      rcases MGState.step_active s e (by simpa using hop.1) with heq | hnone
      · rw [hrun, heq] at ha ⊢
        exact ih s hop.2 ha
      · exfalso
        have := MGState.run_active_none rest (s.step e) hop.2 hnone
        rw [hrun] at ha
        rw [this] at ha
        simp at ha

/-- If promise `p1` was never resolved so far, the stored resolver does not
belong to it, and no later `open` recreates it, then no future signal can ever
resolve it. -/
lemma MGState.run_never_resolves (es : List MGEvent) (s : MGState) (p1 : ℕ)
    (hop : ∀ t, MGEvent.openE p1 t ∉ es)
    (hres : ∀ b, (p1, b) ∉ s.resolutions)
    (hr : s.resolveP ≠ some p1) :
    (∀ b, (p1, b) ∉ (s.run es).resolutions) ∧ (s.run es).resolveP ≠ some p1 := by
  induction es generalizing s with
  | nil => exact ⟨hres, hr⟩
  | cons e rest ih =>
      have hop' : ∀ t, MGEvent.openE p1 t ∉ rest := fun t ht =>
        hop t (List.mem_cons_of_mem _ ht)
      have hstep : (∀ b, (p1, b) ∉ (s.step e).resolutions) ∧ (s.step e).resolveP ≠ some p1 := by
        cases e with
        | openE p t =>
            have hp : p ≠ p1 := by
              intro hpe
              exact hop t (by rw [hpe]; exact List.mem_cons_self _ _)
            refine ⟨hres, ?_⟩
            simp [MGState.step, MGState.openG]
            exact fun hcon => hp hcon
        | completeE =>
            cases hq : s.resolveP with
            | none => exact ⟨by simpa [MGState.step, MGState.finish, hq, MGState.close] using hres,
                by simp [MGState.step, MGState.finish, hq, MGState.close]⟩
            | some q =>
                have hqne : q ≠ p1 := fun hcon => hr (by rw [hq, hcon])
                constructor
                · intro b
                  simp [MGState.step, MGState.finish, hq, MGState.close]
                  exact ⟨hres b, fun hcon => absurd hcon.symm hqne⟩
                · simp [MGState.step, MGState.finish, hq, MGState.close]
        | cancelE t =>
            by_cases hg : s.openedAt ≠ 0 ∧ t - s.openedAt < 280
            · have hid : s.step (.cancelE t) = s := by simp [MGState.step, hg]
              rw [hid]
              exact ⟨hres, hr⟩
            · cases hq : s.resolveP with
              | none => exact ⟨by simpa [MGState.step, if_neg hg, MGState.finish, hq,
                    MGState.close] using hres,
                  by simp [MGState.step, if_neg hg, MGState.finish, hq, MGState.close]⟩
              | some q =>
                  have hqne : q ≠ p1 := fun hcon => hr (by rw [hq, hcon])
                  constructor
                  · intro b
                    simp [MGState.step, if_neg hg, MGState.finish, hq, MGState.close]
                    exact ⟨hres b, fun hcon => absurd hcon.symm hqne⟩
                  · simp [MGState.step, if_neg hg, MGState.finish, hq, MGState.close]
        | closeE => exact ⟨hres, hr⟩
      exact ih (s.step e) hop' hstep.1 hstep.2

/-- **C10** (re-open drops the previous deferred): if `open` for game 2 is
issued while game 1, opened earlier, is still active, then game 1 is
unmounted and the manager's active slot now holds game 2 — but the promise
returned by game 1's `open` call is never resolved, neither to `true` nor to
`false`, by anything that happens afterwards. -/
theorem MiniGameManager.reopen_drops_previous_promise
    (pid1 pid2 : ℕ) (t1 t2 : ℚ) (mid rest : List MGEvent)
    (hmid : mid.all (fun e => !e.isOpenE) = true)
    (hne : pid1 ≠ pid2)
    (hrest : ∀ t, MGEvent.openE pid1 t ∉ rest)
    (hact : ((MGState.initial.step (.openE pid1 t1)).run mid).activeP = some pid1) :
    pid1 ∈ (((MGState.initial.step (.openE pid1 t1)).run mid).step
        (.openE pid2 t2)).unmounts ∧
    (((MGState.initial.step (.openE pid1 t1)).run mid).step
        (.openE pid2 t2)).activeP = some pid2 ∧
    (∀ b, (pid1, b) ∉
      ((((MGState.initial.step (.openE pid1 t1)).run mid).step (.openE pid2 t2)).run
        rest).resolutions) := by
  have hmidrun : (MGState.initial.step (.openE pid1 t1)).run mid
      = MGState.initial.step (.openE pid1 t1) :=
    MGState.run_still_active mid _ hmid (by rw [hact]; rfl)
  have hs2 : ((MGState.initial.step (.openE pid1 t1)).run mid).step (.openE pid2 t2)
      = ⟨some pid2, t2, some pid2, [], [pid1]⟩ := by
    rw [hmidrun]
    rfl
  refine ⟨?_, ?_, ?_⟩
  · rw [hs2]; simp
  · rw [hs2]
  · have h := MGState.run_never_resolves rest
      (((MGState.initial.step (.openE pid1 t1)).run mid).step (.openE pid2 t2)) pid1 hrest
      (by rw [hs2]; simp)
      (by rw [hs2]; simp; exact fun hcon => hne hcon.symm)
    exact h.1

/-- Witness for C10: open game 1 at t=0, immediately re-open game 2, then let
game 2 complete; game 1's promise stays unresolved while game 2's resolves. -/
theorem MiniGameManager.reopen_drops_previous_promise_instance :
    1 ∈ (((MGState.initial.step (.openE 1 0)).run []).step (.openE 2 500)).unmounts ∧
    (((MGState.initial.step (.openE 1 0)).run []).step (.openE 2 500)).activeP = some 2 ∧
    (∀ b, (1, b) ∉
      ((((MGState.initial.step (.openE 1 0)).run []).step (.openE 2 500)).run
        [MGEvent.completeE]).resolutions) :=
  MiniGameManager.reopen_drops_previous_promise 1 2 0 500 [] [MGEvent.completeE]
    (by decide) (by decide) (by intro t ht; simp at ht) rfl

/-! ## Discovery ledger: phrase assignment (game.js lines 1939-1952, 2136-2149)

`this.assignedPhrases` is a JS `Map` from object id to phrase; it is modelled
as an association list with `mapSet` overwriting the entry for a key.  The
`Math.random()` draw in `_getOrAssignPhrase` is passed in as the oracle `r`,
reduced modulo the candidate list's length. -/

/-- `getInteractionPhrases()` (game.js lines 2136-2149): the fixed pool. -/
def getInteractionPhrases : List String :=
  [ "Hay momentos simples que contigo se vuelven mis favoritos.",
    "A veces pienso que nos encontramos justo cuando más lo necesitábamos.",
    "Me gusta la forma en que el tiempo se desordena cuando estamos juntos.",
    "A veces tu recuerdo es todo lo que necesito para sentirme bien.",
    "Me gusta cómo el tiempo se desordena cuando estamos juntos.",
    "Algunas cosas sólo tienen sentido contigo, incluso en silencio.",
    "Es curioso cómo un simple pensamiento tuyo puede acompañarme todo el día.",
    "No todo tiene que ser especial para ser importante.",
    "No importa qué estemos haciendo, contigo siempre se siente mejor.",
    "Si algo quiero repetir muchas veces, es esto que tenemos sin forzarlo." ]


/-- `Map.set`: store `v` under `k`, overwriting any previous entry for `k`. -/
def mapSet (m : List (String × String)) (k v : String) : List (String × String) :=
  (k, v) :: m.filter (fun e => !(e.1 == k))

/-- The assignment path of `_getOrAssignPhrase` (game.js lines 1943-1951):
draw from the pool phrases not yet used by any id (`used` is the set of the
map's values), falling back to the whole pool when all are used, and store
the choice under the id. -/
def assignPhrase (m : List (String × String)) (objectId : String) (r : ℕ) :
    String × List (String × String) :=
  let pool := getInteractionPhrases
  let used := m.map Prod.snd
  let available := pool.filter (fun p => !(decide (p ∈ used)))
  let pickFrom := if available.isEmpty then pool else available
  let chosen := pickFrom.getD (r % pickFrom.length) ""
  (chosen, mapSet m objectId chosen)

/-- `_getOrAssignPhrase(objectId)` (game.js lines 1939-1952).  A stored phrase
is returned as-is when truthy (JS: a non-empty string); otherwise a new phrase
is drawn and stored. -/
def getOrAssignPhrase (m : List (String × String)) (objectId : String) (r : ℕ) :
    String × List (String × String) :=
  match m.lookup objectId with
  | some existing => if existing ≠ "" then (existing, m) else assignPhrase m objectId r
  | none => assignPhrase m objectId r

lemma pool_ne_nil : getInteractionPhrases ≠ [] := by simp [getInteractionPhrases]

lemma pool_no_empty : ∀ p ∈ getInteractionPhrases, p ≠ "" := by decide

lemma getD_mem_of_ne_nil {α : Type} (l : List α) (r : ℕ) (d : α) (h : l ≠ []) :
    l.getD (r % l.length) d ∈ l := by
  have hl : 0 < l.length := List.length_pos.mpr h
  have hr : r % l.length < l.length := Nat.mod_lt _ hl
  rw [List.getD_eq_getElem _ _ hr]
  exact List.getElem_mem hr

/-- The drawn phrase always comes from the fixed pool, and the updated map
stores it under the requested id. -/
lemma assignPhrase_spec (m : List (String × String)) (objectId : String) (r : ℕ) :
    (assignPhrase m objectId r).1 ∈ getInteractionPhrases ∧
    (assignPhrase m objectId r).2 = mapSet m objectId (assignPhrase m objectId r).1 := by
  unfold assignPhrase
  refine ⟨?_, rfl⟩
  by_cases he :
      (getInteractionPhrases.filter (fun p => !(decide (p ∈ m.map Prod.snd)))).isEmpty = true
  · simp only [he, if_true]
    exact getD_mem_of_ne_nil _ r _ pool_ne_nil
  · simp only [he, if_false]
    have hne : getInteractionPhrases.filter (fun p => !(decide (p ∈ m.map Prod.snd))) ≠ [] := by
      simpa [List.isEmpty_iff] using he
    exact List.mem_of_mem_filter (getD_mem_of_ne_nil _ r _ hne)

lemma lookup_filterNe (m : List (String × String)) (k k' : String) (h : (k' == k) = false) :
    (m.filter (fun e => !(e.1 == k))).lookup k' = m.lookup k' := by
  induction m with
  | nil => rfl
  | cons e t ih =>
      rw [List.filter_cons]
      by_cases he : (e.1 == k) = true
      · have hbe : (k' == e.1) = false := by
          have he' : e.1 = k := by simpa using he
          rw [he']
          exact h
        simp [he, List.lookup, hbe, ih]
      · have he' : (e.1 == k) = false := by simpa using he
        cases hk : (k' == e.1) <;> simp [he', List.lookup, hk, ih]

lemma lookup_mapSet_self (m : List (String × String)) (k v : String) :
    (mapSet m k v).lookup k = some v := by
  simp [mapSet, List.lookup]

lemma lookup_mapSet_ne (m : List (String × String)) (k v k' : String) (h : k' ≠ k) :
    (mapSet m k v).lookup k' = m.lookup k' := by
  have hb : (k' == k) = false := by simp [h]
  simp [mapSet, List.lookup, hb, lookup_filterNe m k k' hb]

/-- **C3** (idempotent, non-overwriting, collision-free phrase assignment):
(1) an id that already has a (truthy) phrase gets exactly that phrase back and
the map is untouched — an assignment, once set, is never overwritten;
(2) calling the operation twice for the same id returns the same phrase both
times and the same map — the second call changes nothing;
(3) the operation never touches any other id's assignment, so two distinct ids
keep distinct entries; and
(4) a fresh id is never assigned a phrase already used by another id as long
as unused phrases from the fixed pool remain. -/
theorem App.getOrAssignPhrase_stable_and_fresh :
    (∀ m objectId r p, m.lookup objectId = some p → p ≠ "" →
      getOrAssignPhrase m objectId r = (p, m)) ∧
    (∀ m objectId r r',
      getOrAssignPhrase (getOrAssignPhrase m objectId r).2 objectId r'
        = getOrAssignPhrase m objectId r) ∧
    (∀ m objectId r k, k ≠ objectId →
      ((getOrAssignPhrase m objectId r).2).lookup k = m.lookup k) ∧
    (∀ m objectId r, m.lookup objectId = none →
      getInteractionPhrases.filter (fun p => !(decide (p ∈ m.map Prod.snd))) ≠ [] →
      (getOrAssignPhrase m objectId r).1 ∉ m.map Prod.snd) := by
  have hextg : ∀ m objectId r p, m.lookup objectId = some p → p ≠ "" →
      getOrAssignPhrase m objectId r = (p, m) := by
    intro m objectId r p hl hp
    unfold getOrAssignPhrase
    rw [hl]
    simp [hp]
  refine ⟨hextg, ?_, ?_, ?_⟩
  · intro m objectId r r'
    have hstep : ∀ res : String × List (String × String),
        res = assignPhrase m objectId r →
        getOrAssignPhrase res.2 objectId r' = res := by
      intro res hres
      have hmem : res.1 ∈ getInteractionPhrases := by
        rw [hres]; exact (assignPhrase_spec m objectId r).1
      have hne : res.1 ≠ "" := pool_no_empty _ hmem
      have hlook : res.2.lookup objectId = some res.1 := by
        rw [hres, (assignPhrase_spec m objectId r).2]
        exact lookup_mapSet_self _ _ _
      exact hextg res.2 objectId r' res.1 hlook hne
    cases hl : m.lookup objectId with
    | none =>
        have heq : getOrAssignPhrase m objectId r = assignPhrase m objectId r := by
          unfold getOrAssignPhrase
          rw [hl]
        rw [heq]
        exact hstep _ rfl
    | some p =>
        by_cases hp : p = ""
        · have heq : getOrAssignPhrase m objectId r = assignPhrase m objectId r := by
            unfold getOrAssignPhrase
            rw [hl]
            simp [hp]
          rw [heq]
          exact hstep _ rfl
        · have h1 : getOrAssignPhrase m objectId r = (p, m) := hextg m objectId r p hl hp
          rw [h1]
          exact hextg m objectId r' p hl hp
  · intro m objectId r k hk
    cases hl : m.lookup objectId with
    | none =>
        have heq : getOrAssignPhrase m objectId r = assignPhrase m objectId r := by
          unfold getOrAssignPhrase
          rw [hl]
        rw [heq, (assignPhrase_spec m objectId r).2]
        exact lookup_mapSet_ne _ _ _ _ hk
    | some p =>
        by_cases hp : p = ""
        · have heq : getOrAssignPhrase m objectId r = assignPhrase m objectId r := by
            unfold getOrAssignPhrase
            rw [hl]
            simp [hp]
          rw [heq, (assignPhrase_spec m objectId r).2]
          exact lookup_mapSet_ne _ _ _ _ hk
        · rw [hextg m objectId r p hl hp]
  · intro m objectId r hl hav
    have heq : getOrAssignPhrase m objectId r = assignPhrase m objectId r := by
      unfold getOrAssignPhrase
      rw [hl]
    rw [heq]
    unfold assignPhrase
    have hne : ¬(getInteractionPhrases.filter
        (fun p => !(decide (p ∈ m.map Prod.snd)))).isEmpty = true := by
      simpa [List.isEmpty_iff] using hav
    simp only [hne, if_false]
    have hmem := getD_mem_of_ne_nil
      (getInteractionPhrases.filter (fun p => !(decide (p ∈ m.map Prod.snd)))) r "" hav
    have hout := (List.mem_filter.mp hmem).2
    simpa using hout

/-- Witness for C3: an id with a stored phrase keeps it, untouched. -/
theorem App.getOrAssignPhrase_stable_and_fresh_instance :
    getOrAssignPhrase [("flower", "hola")] "flower" 3 = ("hola", [("flower", "hola")]) :=
  App.getOrAssignPhrase_stable_and_fresh.1 [("flower", "hola")] "flower" 3 "hola"
    (by rfl) (by decide)

/-! ## Scene names, game state, and the tap handler (game.js 1185-1203, 1796-1836)

`_handleInteract` is a single guarded path; its observable effects are whether
a mini-game was opened, which message was shown (with its hold time), and the
updated ledger state.  The awaited mini-game outcome is passed in as `mgOk`;
the tapped object's `discovered` flag is passed in as `objDiscovered` (the
app keeps it equal to membership of the id in the discovered set). -/

/-- The three scenes (game.js line 21). -/
inductive SceneName
  | intro
  | world
  | final
  deriving DecidableEq, Repr

/-- The ids of the nine memories, in `getMemories()` order (game.js 2085-2134). -/
def memoryIds : List String :=
  ["flower", "star", "letter", "light", "butterfly", "moon", "ribbon", "spark", "seal"]

/-- `Set.add`: append if absent (insertion order, no duplicates). -/
def setAdd (l : List String) (x : String) : List String :=
  if x ∈ l then l else l ++ [x]

/-- `GameState` (game.js 1185-1203) together with the `App` fields that the
tap handler reads and writes: the phrase ledger, the unlock order, and the
open/visible flags of the diary, mini-game surface and completion prompt. -/
structure GameSt where
  scene : SceneName
  discovered : List String
  totalMemories : ℕ
  audioMuted : Bool
  audioUnlocked : Bool
  assignedPhrases : List (String × String)
  unlockedOrder : List String
  seenFinal : Bool
  diaryOpen : Bool
  miniOpen : Bool
  completeVisible : Bool
  deriving DecidableEq, Repr

/-- `isComplete()` (game.js 1200-1202). -/
def GameSt.isComplete (st : GameSt) : Bool := st.totalMemories ≤ st.discovered.length

/-- What a single tap produced: whether a mini-game was opened and which
message (if any) was shown, with its `holdMs`. -/
structure InteractFx where
  openedMiniGame : Bool
  message : Option (String × ℕ)
  deriving DecidableEq, Repr

/-- No observable effect. -/
def noFx : InteractFx := ⟨false, none⟩

/-- The low-emphasis acknowledgment for an already-discovered object
(game.js line 1834, shown with `holdMs 1500` against `2800` for a phrase). -/
def ackPhrase : String := "Ya lo tocaste antes. No hace falta repetirlo."

/-- `_handleInteract(obj)` (game.js lines 1796-1836). -/
def handleInteract (st : GameSt) (objId : String) (objDiscovered : Bool) (mgOk : Bool)
    (r : ℕ) : GameSt × InteractFx :=
  if st.scene ≠ .world then (st, noFx)
  else if st.isComplete then (st, noFx)
  else if st.diaryOpen || st.miniOpen then (st, noFx)
  else if st.completeVisible then (st, noFx)
  else if !objDiscovered then
    if !mgOk then (st, { noFx with openedMiniGame := true })
    else
      let discovered1 := setAdd st.discovered objId
      let pr := getOrAssignPhrase st.assignedPhrases objId r
      let order1 :=
        if objId ∈ st.unlockedOrder then st.unlockedOrder else st.unlockedOrder ++ [objId]
      let st1 := { st with
        discovered := discovered1
        assignedPhrases := pr.2
        unlockedOrder := order1 }
      if st1.isComplete then
        ({ st1 with completeVisible := true },
         { openedMiniGame := true, message := some (pr.1, 2800) })
      else (st1, { openedMiniGame := true, message := some (pr.1, 2800) })
  else (st, { openedMiniGame := false, message := some (ackPhrase, 1500) })

/-- A state in which all nine objects are already discovered. -/
def allDiscoveredSt : GameSt :=
  { scene := .world
    discovered := memoryIds
    totalMemories := 9
    audioMuted := false
    audioUnlocked := true
    assignedPhrases := []
    unlockedOrder := memoryIds
    seenFinal := false
    diaryOpen := false
    miniOpen := false
    completeVisible := false }

/-- **C6, counterexample**: in the world scene with no diary, mini-game or
completion prompt open, but with all objects discovered, tapping the
already-discovered object `"star"` shows NO message at all — `_handleInteract`
returns at its `isComplete()` guard (game.js line 1798) — contradicting the
claim that a tap on an already-discovered object always surfaces the
low-emphasis acknowledgment. -/
theorem App.handleInteract_after_complete_no_ack :
    allDiscoveredSt.scene = SceneName.world ∧
    allDiscoveredSt.diaryOpen = false ∧
    allDiscoveredSt.miniOpen = false ∧
    "star" ∈ allDiscoveredSt.discovered ∧
    (handleInteract allDiscoveredSt "star" true true 0).2.message = none ∧
    (handleInteract allDiscoveredSt "star" true true 0).2.message ≠ some (ackPhrase, 1500) := by
  have hnone : (handleInteract allDiscoveredSt "star" true true 0).2.message = none := rfl
  refine ⟨rfl, rfl, rfl, ?_, hnone, ?_⟩
  · simp [allDiscoveredSt, memoryIds]
  · rw [hnone]
    simp

/-- **C6, amended**: a tap on an already-discovered object in the world scene,
with no diary or mini-game open, provided not all objects are discovered yet
and the completion prompt is not visible, opens no mini-game, leaves the whole
state (in particular `assignedPhrases`) unchanged, and shows exactly the
distinct low-emphasis acknowledgment (1500 ms hold versus 2800 ms for a
phrase).  After completion (or under the completion prompt) the tap is ignored
outright: still no mini-game and no state change, but no message either. -/
theorem App.handleInteract_rediscovered_ack
    (st : GameSt) (objId : String) (mgOk : Bool) (r : ℕ)
    (hsc : st.scene = .world) (hnc : st.isComplete = false)
    (hd : st.diaryOpen = false) (hm : st.miniOpen = false)
    (hcv : st.completeVisible = false) :
    handleInteract st objId true mgOk r
      = (st, { openedMiniGame := false, message := some (ackPhrase, 1500) }) := by
  simp [handleInteract, hsc, hnc, hd, hm, hcv]

/-- A state with one of nine objects discovered. -/
def oneDiscoveredSt : GameSt :=
  { allDiscoveredSt with
    discovered := ["flower"]
    unlockedOrder := ["flower"]
    assignedPhrases := [("flower", "Hay momentos simples que contigo se vuelven mis favoritos.")] }

/-- Witness for the amended C6: re-tapping `"flower"` mid-game only shows the
acknowledgment. -/
theorem App.handleInteract_rediscovered_ack_instance :
    handleInteract oneDiscoveredSt "flower" true true 0
      = (oneDiscoveredSt, { openedMiniGame := false, message := some (ackPhrase, 1500) }) :=
  App.handleInteract_rediscovered_ack oneDiscoveredSt "flower" true 0 rfl rfl rfl rfl rfl

/-! ## Finale timeline (game.js lines 2002-2018 and 2065-2078) -/

/-- `this._finalTimeline` (game.js 2011-2017): start time, number of revealed
paragraphs, the delays, and each paragraph node's visibility (`.on` class). -/
structure FinalTimeline where
  start : ℚ
  revealed : ℕ
  baseDelay : ℚ
  stepDelay : ℚ
  nodesOn : List Bool
  deriving DecidableEq, Repr

/-- `_startFinalTimeline()` (game.js 2002-2018): fresh timeline over
`numNodes` paragraphs, none yet visible; shorter delays under reduced motion. -/
def App.startFinalTimeline (numNodes : ℕ) (now : ℚ) (reducedMotion : Bool) : FinalTimeline :=
  { start := now
    revealed := 0
    baseDelay := if reducedMotion then 500 else 900
    stepDelay := if reducedMotion then 900 else 2100
    nodesOn := List.replicate numNodes false }

/-- `_updateFinalTimeline(t)` (game.js 2065-2078): if the next unrevealed
paragraph's due time `baseDelay + nextIndex * stepDelay` has elapsed, mark it
visible and advance `revealed` — at most one paragraph per tick. -/
def App.updateFinalTimeline (tl : FinalTimeline) (t : ℚ) : FinalTimeline :=
  let elapsed := t - tl.start
  let nextIndex := tl.revealed
  if nextIndex ≥ tl.nodesOn.length then tl
  else if elapsed ≥ tl.baseDelay + (nextIndex : ℚ) * tl.stepDelay then
    { tl with nodesOn := tl.nodesOn.set nextIndex true, revealed := tl.revealed + 1 }
  else tl

/-- A fresh two-paragraph timeline started at t = 0 without reduced motion. -/
def tlTwo : FinalTimeline := App.startFinalTimeline 2 0 false

/-- **C7, counterexample**: at t = 3000 both paragraphs of `tlTwo` are due
(paragraph 0 at 900 ms, paragraph 1 at 900 + 2100 = 3000 ms), yet a single
tick at t = 3000 reveals only paragraph 0: the claim that each tick marks
visible EVERY segment whose due time has elapsed fails. -/
theorem App.finalTimeline_two_due_one_reveal :
    ((3000 : ℚ) - tlTwo.start ≥ tlTwo.baseDelay + (1 : ℚ) * tlTwo.stepDelay) ∧
    (App.updateFinalTimeline tlTwo 3000).nodesOn.getD 1 false = false ∧
    (App.updateFinalTimeline tlTwo 3000).revealed = 1 := by
  refine ⟨by norm_num [tlTwo, App.startFinalTimeline], ?_, ?_⟩ <;>
    norm_num [tlTwo, App.startFinalTimeline, App.updateFinalTimeline, List.replicate, List.set]

lemma getD_set_true (l : List Bool) (n i : ℕ) (h : l.getD i false = true) :
    (l.set n true).getD i false = true := by
  by_cases hi : i < l.length
  · have hi' : i < (l.set n true).length := by simpa using hi
    rw [List.getD_eq_getElem _ _ hi'] at *
    rw [List.getD_eq_getElem _ _ hi] at h
    rw [List.getElem_set]
    by_cases hni : n = i
    · simp [hni]
    · simpa [hni] using h
  · rw [List.getD_eq_default _ _ (by omega)] at h
    exact absurd h (by simp)

/-- **C7, amended**: each tick the finale timeline reveals at most one
segment — the next pending one, exactly when its due time
`baseDelay + index * stepDelay` has elapsed — so reveals are monotonic, a
revealed segment is never un-revealed, and every due segment is revealed
after enough ticks (one per tick). -/
theorem App.finalTimeline_reveal_step_monotone (tl : FinalTimeline) (t : ℚ) :
    (tl.revealed ≤ (App.updateFinalTimeline tl t).revealed) ∧
    ((App.updateFinalTimeline tl t).revealed ≤ tl.revealed + 1) ∧
    (∀ i, tl.nodesOn.getD i false = true →
      (App.updateFinalTimeline tl t).nodesOn.getD i false = true) ∧
    (tl.revealed < tl.nodesOn.length →
      t - tl.start ≥ tl.baseDelay + (tl.revealed : ℚ) * tl.stepDelay →
      (App.updateFinalTimeline tl t).revealed = tl.revealed + 1 ∧
      (App.updateFinalTimeline tl t).nodesOn.getD tl.revealed false = true) := by
  unfold App.updateFinalTimeline
  by_cases h1 : tl.revealed ≥ tl.nodesOn.length
  · rw [if_pos h1]
    exact ⟨le_refl _, Nat.le_succ _, fun i hi => hi, fun hlt _ => absurd hlt (by omega)⟩
  · rw [if_neg h1]
    by_cases h2 : t - tl.start ≥ tl.baseDelay + (tl.revealed : ℚ) * tl.stepDelay
    · rw [if_pos h2]
      refine ⟨Nat.le_succ _, le_refl _, fun i hi => getD_set_true _ _ _ hi,
        fun hlt _ => ⟨rfl, ?_⟩⟩
      have hlen' : tl.revealed < (tl.nodesOn.set tl.revealed true).length := by
        rw [List.length_set]
        omega
      show (tl.nodesOn.set tl.revealed true).getD tl.revealed false = true
      rw [List.getD_eq_getElem _ _ hlen', List.getElem_set]
      simp
    · rw [if_neg h2]
      exact ⟨le_refl _, Nat.le_succ _, fun i hi => hi, fun _ hdue => absurd hdue h2⟩

/-- Witness for the amended C7: the first tick past 900 ms reveals exactly
paragraph 0 of `tlTwo`. -/
theorem App.finalTimeline_reveal_step_monotone_instance :
    (App.updateFinalTimeline tlTwo 1000).revealed = tlTwo.revealed + 1 ∧
    (App.updateFinalTimeline tlTwo 1000).nodesOn.getD tlTwo.revealed false = true :=
  (App.finalTimeline_reveal_step_monotone tlTwo 1000).2.2.2
    (by norm_num [tlTwo, App.startFinalTimeline])
    (by norm_num [tlTwo, App.startFinalTimeline])

/-! ## Startup: `_restore` and the constructor's scene reset (game.js 1256-1402, 1880-1924)

The persisted progress record, after `StorageManager.load`'s field
normalization, always has the shape below.  `_restore`'s compat loop calls
`_getOrAssignPhrase` once per discovered id; its `Math.random()` draws are
supplied by the oracle `rnd`, indexed by the loop counter. -/

/-- The normalized progress record (game.js lines 85-96). -/
structure SavedRecord where
  discoveredIds : List String
  muted : Bool
  volume : ℚ
  assignedPhrases : List (String × String)
  unlockedOrder : List String
  seenFinal : Bool
  deriving DecidableEq, Repr

/-- The default record returned when nothing (valid) is stored. -/
def defaultRecord : SavedRecord :=
  { discoveredIds := []
    muted := false
    volume := 1
    assignedPhrases := []
    unlockedOrder := []
    seenFinal := false }

/-- The app state `_restore` and the constructor touch: the game/ledger state
and the audio manager. -/
structure AppModel where
  state : GameSt
  audio : AudioManager
  deriving Repr

/-- The state built by the `GameState` and `App` constructors before
`_restore` runs: intro scene, nothing discovered, nine memories. -/
def GameSt.initial : GameSt :=
  { scene := .intro
    discovered := []
    totalMemories := memoryIds.length
    audioMuted := false
    audioUnlocked := false
    assignedPhrases := []
    unlockedOrder := []
    seenFinal := false
    diaryOpen := false
    miniOpen := false
    completeVisible := false }

/-- `_restore()` (game.js lines 1880-1924): apply the saved mute flag and
volume to the audio manager, merge saved phrase assignments and unlock order,
re-add the saved discovered ids, run the phrase-compat loop over the
discovered set, and rebuild a stable unlock order if none was saved.  The
scene is deliberately not touched here. -/
def App.restore (a : AppModel) (saved : SavedRecord) (rnd : ℕ → ℕ) : AppModel :=
  let st := a.state
  let audio1 := a.audio.setMuted saved.muted
  let audio2 := audio1.setMasterVolume saved.volume
  let phrases1 := saved.assignedPhrases.foldl (fun acc kv => mapSet acc kv.1 kv.2)
    st.assignedPhrases
  let order1 := saved.unlockedOrder
  let discovered1 := saved.discoveredIds.foldl setAdd st.discovered
  let phrases2 := (discovered1.foldl
    (fun (acc : List (String × String) × ℕ) id =>
      ((getOrAssignPhrase acc.1 id (rnd acc.2)).2, acc.2 + 1))
    (phrases1, 0)).1
  let order2 :=
    if order1.isEmpty && !discovered1.isEmpty then
      memoryIds.filter (fun id => decide (id ∈ discovered1))
    else order1
  { state := { st with
      audioMuted := saved.muted
      discovered := discovered1
      assignedPhrases := phrases2
      unlockedOrder := order2
      seenFinal := saved.seenFinal }
    audio := audio2 }

/-- The `App` constructor's startup path (game.js 1386-1402): build the
initial state, `_restore()` the saved record, then always force the scene
back to the intro (lines 1390-1394) before showing it. -/
def App.boot (saved : SavedRecord) (rnd : ℕ → ℕ) : AppModel :=
  let a0 : AppModel := { state := GameSt.initial, audio := AudioManager.init }
  let a1 := App.restore a0 saved rnd
  { a1 with state := { a1.state with scene := .intro } }

/-- **C8** (reload never auto-skips the intro): on every startup the scene is
`intro`, whatever the persisted record says — even with `seenFinal = true` or
every object discovered — because `_restore` never touches the scene and the
constructor forces `intro` afterwards. -/
theorem App.boot_scene_intro (saved : SavedRecord) (rnd : ℕ → ℕ) (a : AppModel) :
    (App.boot saved rnd).state.scene = SceneName.intro ∧
    (App.restore a saved rnd).state.scene = a.state.scene := ⟨rfl, rfl⟩

/-! ## StorageManager (game.js lines 57-109)

`localStorage` is modelled as an association list from keys to stored values.
The program only ever stores the reset marker `"1"` and `JSON.stringify` of a
progress record, so a stored value is either a raw string or a record;
`JSON.parse` plus the field normalization of lines 87-96 maps a stored record
to its normalized form, and any other raw string — which cannot supply the
expected fields — to the default record (the `catch` / missing-field path). -/

/-- A value held in `localStorage`. -/
inductive StoreVal
  | str (s : String)
  | record (r : SavedRecord)
  deriving DecidableEq, Repr

/-- `localStorage.setItem` on the association-list model. -/
def setItem (store : List (String × StoreVal)) (k : String) (v : StoreVal) :
    List (String × StoreVal) :=
  (k, v) :: store.filter (fun e => !(e.1 == k))

/-- `localStorage.removeItem`. -/
def removeItem (store : List (String × StoreVal)) (k : String) : List (String × StoreVal) :=
  store.filter (fun e => !(e.1 == k))

/-- `JSON.parse` plus field normalization (game.js 86-96): a stored record's
typed fields pass through with `volume` clamped to `[0,1]`; any other stored
string yields the defaults. -/
def parseStored : StoreVal → SavedRecord
  | .record r => { r with volume := clamp01 r.volume }
  | .str _ => defaultRecord

/-- `StorageManager.load()` (game.js lines 62-100): on the first load of this
release (reset marker absent) set the marker, remove every other key, and
only then read the progress record; afterwards read it directly. -/
def StorageManager.load (key : String) (store : List (String × StoreVal)) :
    SavedRecord × List (String × StoreVal) :=
  let resetOnceKey := key ++ "__reset_once_2026_01"
  let store1 :=
    if (store.lookup resetOnceKey).isNone then
      let s1 := setItem store resetOnceKey (.str "1")
      let keysToRemove := (s1.map Prod.fst).filter (fun k2 => !(k2 == resetOnceKey))
      keysToRemove.foldl removeItem s1
    else store
  match store1.lookup key with
  | none => (defaultRecord, store1)
  | some v => (parseStored v, store1)

lemma foldl_removeItem (ks : List String) (s : List (String × StoreVal)) :
    ks.foldl removeItem s = s.filter (fun e => !(decide (e.1 ∈ ks))) := by
  induction ks generalizing s with
  | nil => simp
  | cons k t ih =>
      show t.foldl removeItem (removeItem s k) = _
      rw [ih]
      unfold removeItem
      rw [List.filter_filter]
      refine List.filter_congr ?_
      intro e _
      by_cases h1 : e.1 = k <;> by_cases h2 : e.1 ∈ t <;> simp [h1, h2]

/-- The one-time wipe leaves exactly the reset marker in storage. -/
lemma wipe_eq (key : String) (store : List (String × StoreVal)) :
    (((setItem store (key ++ "__reset_once_2026_01") (.str "1")).map Prod.fst).filter
        (fun k2 => !(k2 == key ++ "__reset_once_2026_01"))).foldl removeItem
      (setItem store (key ++ "__reset_once_2026_01") (.str "1"))
      = [(key ++ "__reset_once_2026_01", StoreVal.str "1")] := by
  rw [foldl_removeItem]
  have hnotin : (key ++ "__reset_once_2026_01") ∉
      ((setItem store (key ++ "__reset_once_2026_01") (.str "1")).map Prod.fst).filter
        (fun k2 => !(k2 == key ++ "__reset_once_2026_01")) := by
    intro hmem
    have := (List.mem_filter.mp hmem).2
    simp at this
  have htail : (store.filter (fun e => !(e.1 == key ++ "__reset_once_2026_01"))).filter
      (fun e => !(decide (e.1 ∈
        ((setItem store (key ++ "__reset_once_2026_01") (.str "1")).map Prod.fst).filter
          (fun k2 => !(k2 == key ++ "__reset_once_2026_01"))))) = [] := by
    refine List.filter_eq_nil_iff.mpr ?_
    intro e he
    have h1 : (!(e.1 == key ++ "__reset_once_2026_01")) = true := (List.mem_filter.mp he).2
    have h2 : e.1 ∈ (setItem store (key ++ "__reset_once_2026_01") (.str "1")).map Prod.fst := by
      unfold setItem
      simp only [List.map_cons, List.mem_cons]
      exact Or.inr (List.mem_map.mpr ⟨e, he, rfl⟩)
    have h3 : e.1 ∈
        ((setItem store (key ++ "__reset_once_2026_01") (.str "1")).map Prod.fst).filter
          (fun k2 => !(k2 == key ++ "__reset_once_2026_01")) :=
      List.mem_filter.mpr ⟨h2, h1⟩
    simp [h3]
  have hexp : setItem store (key ++ "__reset_once_2026_01") (.str "1")
      = (key ++ "__reset_once_2026_01", StoreVal.str "1") ::
        store.filter (fun e => !(e.1 == key ++ "__reset_once_2026_01")) := rfl
  rw [hexp] at hnotin htail
  conv_lhs => rw [hexp]
  rw [List.filter_cons]
  rw [if_pos (by simp [hnotin])]
  rw [htail]

lemma self_ne_append_reset (key : String) : key ≠ key ++ "__reset_once_2026_01" := by
  intro h
  have h2 := congrArg String.length h
  rw [String.length_append] at h2
  have h3 : ("__reset_once_2026_01" : String).length = 20 := rfl
  rw [h3] at h2
  omega

/-- On the first load of this release, `load` wipes everything but the fresh
marker and returns the default record. -/
lemma load_first (key : String) (store : List (String × StoreVal))
    (habs : store.lookup (key ++ "__reset_once_2026_01") = none) :
    StorageManager.load key store
      = (defaultRecord, [(key ++ "__reset_once_2026_01", StoreVal.str "1")]) := by
  have hiso : (store.lookup (key ++ "__reset_once_2026_01")).isNone = true := by simp [habs]
  have hne : (key == key ++ "__reset_once_2026_01") = false := by
    simpa using self_ne_append_reset key
  unfold StorageManager.load
  simp only [hiso, eq_self_iff_true, if_true]
  rw [wipe_eq key store]
  simp [List.lookup, hne]

/-- With the marker present, `load` removes nothing. -/
lemma load_subsequent (key : String) (store : List (String × StoreVal)) (v : StoreVal)
    (h : store.lookup (key ++ "__reset_once_2026_01") = some v) :
    (StorageManager.load key store).2 = store := by
  have hiso : (store.lookup (key ++ "__reset_once_2026_01")).isNone = false := by simp [h]
  unfold StorageManager.load
  simp only [hiso]
  rw [if_neg (by simp)]
  cases hl : store.lookup key <;> simp [hl]

/-- **C9** (one-time release reset): when the reset marker is absent, `load`
sets the marker and removes every other storage key — afterwards storage holds
exactly the marker, so in particular the progress record under `key` is gone
before it is read — and returns the default record.  When the marker is
present, `load` removes nothing: the store comes back unchanged. -/
theorem StorageManager.load_reset_once (key : String) (store : List (String × StoreVal)) :
    (store.lookup (key ++ "__reset_once_2026_01") = none →
      (StorageManager.load key store).1 = defaultRecord ∧
      (StorageManager.load key store).2 = [(key ++ "__reset_once_2026_01", StoreVal.str "1")] ∧
      ((StorageManager.load key store).2).lookup key = none) ∧
    (∀ v, store.lookup (key ++ "__reset_once_2026_01") = some v →
      (StorageManager.load key store).2 = store) := by
  constructor
  · intro habs
    have hl := load_first key store habs
    have hne : (key == key ++ "__reset_once_2026_01") = false := by
      simpa using self_ne_append_reset key
    rw [hl]
    exact ⟨rfl, rfl, by simp [List.lookup, hne]⟩
  · intro v hv
    exact load_subsequent key store v hv

/-- Witness for C9: a fresh store with a stale progress record under the key
`"x"` gets wiped to just the marker on the first load. -/
theorem StorageManager.load_reset_once_instance :
    (StorageManager.load "x" [("x", StoreVal.record defaultRecord)]).1 = defaultRecord ∧
    (StorageManager.load "x" [("x", StoreVal.record defaultRecord)]).2
      = [("x" ++ "__reset_once_2026_01", StoreVal.str "1")] ∧
    ((StorageManager.load "x" [("x", StoreVal.record defaultRecord)]).2).lookup "x" = none :=
  (StorageManager.load_reset_once "x" [("x", StoreVal.record defaultRecord)]).1 (by decide)
